import Mathlib

/-!
Verification of the diff-collection and prompt-relay core of the
`code-reviewer` VS Code extension (`src/extension.ts`) against its
natural-language specification.

The embedding models the TypeScript source shallowly:

* JavaScript string primitives used by the source (`trim`, `split('\n')`,
  `split(/\s+/)`, `startsWith`, `replace(pat, rep)` which replaces only the
  first occurrence) are defined over `List Char` with JS semantics;
* `execAsync` invocations are modelled by an environment function mapping
  the command to either captured stdout or a process failure carrying the
  exit code (`error.code`) and stderr; every value thrown by the source is
  an `Error` instance, represented by the type `JsError`;
* the streamed model response is a finite list of steps (fragment or
  raised error), consumed in order by the relay loop.
-/

/-! ## JavaScript string primitives -/

/-- Whitespace test used for the JS `trim` / `\s` behaviour of the source. -/
def jsWs (c : Char) : Bool := c.isWhitespace

/-- JS `String.prototype.trim` on a character list: drop whitespace from both ends. -/
def jsTrimList (l : List Char) : List Char :=
  ((l.dropWhile jsWs).reverse.dropWhile jsWs).reverse

/-- JS `s.trim()`. -/
def jsTrim (s : String) : String := String.mk (jsTrimList s.data)

/-- Accumulating splitter for JS `s.split('\n')`: cut exactly at newline characters. -/
def splitLinesGo : List Char → List Char → List (List Char)
  | [], acc => [acc.reverse]
  | c :: rest, acc =>
      if c = '\n' then acc.reverse :: splitLinesGo rest []
      else splitLinesGo rest (c :: acc)

/-- JS `s.split('\n')`. -/
def jsSplitLines (s : String) : List String :=
  (splitLinesGo s.data []).map String.mk

mutual

/-- Splitter state for JS `s.split(/\s+/)` while inside a token. -/
def splitWsGo : List Char → List Char → List (List Char)
  | [], acc => [acc.reverse]
  | c :: rest, acc =>
      if jsWs c then acc.reverse :: splitWsSkip rest
      else splitWsGo rest (c :: acc)

/-- Splitter state for JS `s.split(/\s+/)` while consuming a whitespace run. -/
def splitWsSkip : List Char → List (List Char)
  | [] => [[]]
  | c :: rest => if jsWs c then splitWsSkip rest else splitWsGo rest [c]

end

/-- JS `s.split(/\s+/)`: split on maximal whitespace runs; an empty string
yields one empty token, and leading/trailing runs yield empty edge tokens,
as in JavaScript. -/
def jsSplitWs (s : String) : List String :=
  (splitWsGo s.data []).map String.mk

/-- JS `s.startsWith(p)` on character lists. -/
def strStartsWith (s p : String) : Bool := p.data.isPrefixOf s.data

/-- JS `s.replace(pat, rep)` with a string pattern: replace only the FIRST
occurrence of `pat` (the whole string is unchanged when `pat` never occurs;
an empty `pat` matches at position 0). -/
def replaceFirstList (pat rep : List Char) : List Char → List Char
  | [] => if pat = [] then rep else []
  | c :: rest =>
      if pat.isPrefixOf (c :: rest) then rep ++ (c :: rest).drop pat.length
      else c :: replaceFirstList pat rep rest

/-- JS `s.replace(pat, rep)` on strings. -/
def replaceFirstStr (pat rep s : String) : String :=
  String.mk (replaceFirstList pat.data rep.data s.data)

/-! ## Errors and process invocations -/

/-- Rejection value of a failed `execAsync` call: the `code` property of the
`Error` (the child's exit code when it exited, `none` when absent or not a
number) and captured stderr. -/
structure ProcFailure where
  code : Option Int
  stderr : String
deriving DecidableEq

/-- Values thrown by the source. Every one of them is an `instanceof Error`:
`procError` is a rejected `execAsync` promise, `simpleError` is
`new Error(message)`, and `languageModelError` is a
`vscode.LanguageModelError` carrying message, code and cause. -/
inductive JsError
  | procError (f : ProcFailure)
  | simpleError (message : String)
  | languageModelError (message code : String) (cause : Option String)
deriving DecidableEq

/-- Test mirroring `err instanceof vscode.LanguageModelError` in the source. -/
def JsError.isLanguageModelError : JsError → Bool
  | .languageModelError _ _ _ => true
  | _ => false

/-- Test mirroring `error instanceof Error && 'code' in error && error.code === 128`
in `getGitChanges`: only exec rejections carry a `code` property. -/
def JsError.isCode128 : JsError → Bool
  | .procError f => f.code == some 128
  | _ => false

/-! ## Diff bundle data model -/

/-- One labeled section of a DiffBundle (spec §3). -/
structure DiffSection where
  label : String
  body : String
deriving DecidableEq

/-! ## Working-tree changes: `getGitChanges` (extension.ts lines 176–206) -/

/-- Concatenated diff text built by `getGitChanges` from the two captured
diffs: the staged block (with its `=== STAGED CHANGES ===` marker and a
trailing newline) is appended when the staged diff trims to a non-empty
string, then the unstaged block likewise. -/
def combineDiffs (stagedDiff unstagedDiff : String) : String :=
  (if jsTrim stagedDiff ≠ "" then "=== STAGED CHANGES ===\n" ++ stagedDiff ++ "\n" else "") ++
  (if jsTrim unstagedDiff ≠ "" then "=== UNSTAGED CHANGES ===\n" ++ unstagedDiff else "")

/-- Section-level view of the same two conditionals of `getGitChanges`: the
bundle holds the staged section when its body trims non-empty, then the
unstaged section likewise. -/
def gitChangesBundle (stagedDiff unstagedDiff : String) : List DiffSection :=
  (if jsTrim stagedDiff ≠ "" then [⟨"STAGED CHANGES", stagedDiff⟩] else []) ++
  (if jsTrim unstagedDiff ≠ "" then [⟨"UNSTAGED CHANGES", unstagedDiff⟩] else [])

/-- Translation of the catch clause of `getGitChanges`: an exec failure whose
`code` is `128` becomes `new Error('Not a git repository')`; every other
failure is rethrown as the raw process error. -/
def classifyGitChangesFailure (f : ProcFailure) : JsError :=
  if (JsError.procError f).isCode128 then .simpleError "Not a git repository"
  else .procError f

/-- The `getGitChanges` function: run `git diff --cached` then `git diff`
(each through `execAsync` in the workspace root, modelled by `run`), combine
the non-empty sections, and classify failures via the catch clause. -/
def getGitChanges (run : String → Except ProcFailure String) : Except JsError String :=
  match run "git diff --cached" with
  | .error f => .error (classifyGitChangesFailure f)
  | .ok stagedDiff =>
      match run "git diff" with
      | .error f => .error (classifyGitChangesFailure f)
      | .ok unstagedDiff => .ok (combineDiffs stagedDiff unstagedDiff)

/-! ## Branch listing: `getBranches` (extension.ts lines 315–333) -/

/-- First-occurrence keeping step of the JS idiom
`filter((b, index, self) => self.indexOf(b) === index)`: an element is kept
exactly when it has not been seen earlier in the array. -/
def dedupFirstGo (seen : List String) : List String → List String
  | [] => []
  | b :: rest =>
      if seen.contains b then dedupFirstGo seen rest
      else b :: dedupFirstGo (b :: seen) rest

/-- De-duplication keeping only the first occurrence, in listing order. -/
def dedupFirst (l : List String) : List String := dedupFirstGo [] l

/-- The pipeline of `getBranches` before de-duplication: split the captured
stdout on newlines, trim each entry, drop entries that are empty, drop
entries starting with `origin/HEAD`, and apply
`b.replace('origin/', '')` — which removes the first occurrence of the
substring `origin/` wherever it appears — to each remaining entry. -/
def branchLines (stdout : String) : List String :=
  ((((jsSplitLines stdout).map jsTrim).filter
      (fun b => b.length > 0)).filter
      (fun b => !strStartsWith b "origin/HEAD")).map
      (replaceFirstStr "origin/" "")

/-- The `getBranches` function applied to the stdout captured from
`git branch --all --format="%(refname:short)"`: process the lines and remove
duplicates keeping first occurrences. -/
def getBranches (stdout : String) : List String :=
  dedupFirst (branchLines stdout)

/-! ## Branch resolution and branch diff (extension.ts lines 335–375) -/

/-- Environment of `getBranchDiff`: whether `git rev-parse --verify <ref>`
succeeds for a reference, and the outcome of `git diff <base>...<target>`. -/
structure GitEnv where
  verify : String → Bool
  diff3 : String → String → Except ProcFailure String

/-- The inner `resolveBranch` helper: try the name as-is via
`git rev-parse --verify`; on failure, when the name does not already start
with `origin/`, retry with `origin/` prepended; otherwise (or when the retry
also fails) throw `` Error(`Branch '<name>' not found`) ``. -/
def resolveBranch (verify : String → Bool) (branch : String) : Except JsError String :=
  if verify branch then .ok branch
  else if ¬ strStartsWith branch "origin/" then
    if verify ("origin/" ++ branch) then .ok ("origin/" ++ branch)
    else .error (.simpleError ("Branch '" ++ branch ++ "' not found"))
  else .error (.simpleError ("Branch '" ++ branch ++ "' not found"))

/-- The `getBranchDiff` function, instrumented with the list of diff
commands it issues: resolve the target, then the base; on success run
`git diff <resolvedBase>...<resolvedTarget>` once and return its raw stdout.
The catch clause rethrows every `Error` instance unchanged — which covers
both resolution failures and exec rejections — so a failed diff invocation
propagates as the raw process error (`Unable to compare branches` would be
reached only by a thrown value that is not an `Error`, which never occurs). -/
def getBranchDiffT (env : GitEnv) (targetBranch baseBranch : String) :
    List String × Except JsError String :=
  match resolveBranch env.verify targetBranch with
  | .error e => ([], .error e)
  | .ok resolvedTarget =>
      match resolveBranch env.verify baseBranch with
      | .error e => ([], .error e)
      | .ok resolvedBase =>
          let cmd := "git diff " ++ resolvedBase ++ "..." ++ resolvedTarget
          match env.diff3 resolvedBase resolvedTarget with
          | .ok stdout => ([cmd], .ok stdout)
          | .error f => ([cmd], .error (.procError f))

/-- Result of `getBranchDiff` without the instrumentation. -/
def getBranchDiff (env : GitEnv) (targetBranch baseBranch : String) :
    Except JsError String :=
  (getBranchDiffT env targetBranch baseBranch).2

/-- Follows the spec's words (§4.2): the raw branch-diff output is wrapped
as a single section labeled `BRANCH DIFF`. The source returns the raw
string unlabeled; this definition is the spec's data-model view of that
return value, kept for comparison with the source's behaviour. -/
def specBranchDiffBundle (stdout : String) : List DiffSection :=
  [⟨"BRANCH DIFF", stdout⟩]

/-! ## Exec call sites and output ceilings (extension.ts lines 179, 184, 317, 340, 346, 363) -/

/-- The six `execAsync` call sites of the source, grouped by the option
record they pass. -/
inductive CallSite
  | stagedDiff
  | unstagedDiff
  | branchList
  | verifyRef
  | branchDiff
deriving DecidableEq

/-- The `maxBuffer` option passed at each call site: the three diff
invocations pass `1024 * 1024 * 10`; the branch listing and the
`rev-parse --verify` calls pass no `maxBuffer` at all. -/
def maxBufferOf : CallSite → Option Nat
  | .stagedDiff => some (1024 * 1024 * 10)
  | .unstagedDiff => some (1024 * 1024 * 10)
  | .branchList => none
  | .verifyRef => none
  | .branchDiff => some (1024 * 1024 * 10)

/-- Modelled from the spec: the Process Runner (Node's `child_process.exec`,
external to this repository) captures stdout up to the call's `maxBuffer`,
which defaults to 1 MiB when the option is not passed. -/
def effectiveCeiling (c : CallSite) : Nat :=
  (maxBufferOf c).getD (1024 * 1024)

/-- Modelled from the spec: an invocation whose captured stdout exceeds its
effective ceiling fails with the output-too-large process error (the spec's
`OutputTooLarge` classification); otherwise the stdout is returned whole.
Output size is measured in characters. -/
def runnerCaptures (c : CallSite) (stdout : String) : Except JsError String :=
  if stdout.length > effectiveCeiling c then
    .error (.simpleError "stdout maxBuffer length exceeded")
  else .ok stdout

/-! ## Chat relay (extension.ts lines 158–173 and 297–312) -/

/-- One step yielded by the async iterator `chatResponse.text`: either a
text fragment or a raised error ending the iteration. -/
inductive StreamStep
  | fragment (s : String)
  | failure (e : JsError)
deriving DecidableEq

/-- Outcome of the relay loop after the stream ends. -/
inductive RelayOutcome
  | completed
  | modelErrorReported (message code : String) (cause : Option String)
  | propagated (e : JsError)
deriving DecidableEq

/-- The relay loop of both review handlers: forward each arriving fragment
to the chat stream in order; when the iteration raises a
`vscode.LanguageModelError`, stop and report its message, code and cause;
rethrow any other raised value unchanged. Returns the list of fragments
forwarded before the stream ended, with the outcome. -/
def relayModelStream : List StreamStep → List String × RelayOutcome
  | [] => ([], .completed)
  | .fragment s :: rest =>
      let r := relayModelStream rest
      (s :: r.1, r.2)
  | .failure e :: _ =>
      match e with
      | .languageModelError m c cause => ([], .modelErrorReported m c cause)
      | _ => ([], .propagated e)

/-- Modelled from the spec: the external model stream, cancelled through the
token after the caller has received `k` fragments, yields exactly those
first `k` fragments and then ends without raising (spec §4.5 and §6: the
conversational model service is an external collaborator that stops the
stream on cancellation). -/
def cancelledStream (fragments : List String) (k : Nat) : List StreamStep :=
  (fragments.take k).map StreamStep.fragment

/-! ## Argument parsing of `/reviewBranch` (extension.ts lines 218–255) -/

/-- Outcome of the argument-parsing stage of `handleReviewBranchCommand`:
either both branch names are determined and the handler proceeds to the
diff and model request, or the usage hint is shown and the handler returns
(no diff and no model request). -/
inductive BranchArgsOutcome
  | proceed (targetBranch baseBranch : String)
  | usage
deriving DecidableEq

/-- The argument-parsing stage of `handleReviewBranchCommand`: trim the
free-text prompt and split it on whitespace runs. With two or more parts,
the first two become target and base (the rest are unused). With exactly
one part, it becomes the target and the base defaults to `main` when the
branch listing contains it, else `master` when it contains that, else stays
undefined (also when the listing itself fails). When either branch is
undefined or empty (JS falsiness of `''`), the usage hint is shown. -/
def parseBranchArgs (prompt : String) (branchListing : Except JsError (List String)) :
    BranchArgsOutcome :=
  match jsSplitWs (jsTrim prompt) with
  | t :: b :: _ => if t ≠ "" ∧ b ≠ "" then .proceed t b else .usage
  | [t] =>
      if t ≠ "" then
        match branchListing with
        | .ok branches =>
            if branches.contains "main" then .proceed t "main"
            else if branches.contains "master" then .proceed t "master"
            else .usage
        | .error _ => .usage
      else .usage
  | [] => .usage

/-! ## Helper lemmas -/

/-- De-duplication output never repeats an element and never yields one
already seen. -/
theorem dedupFirstGo_nodup_unseen (l : List String) :
    ∀ seen : List String, (dedupFirstGo seen l).Nodup ∧
      ∀ b ∈ dedupFirstGo seen l, seen.contains b = false := by
  induction l with
  | nil => intro seen; simp [dedupFirstGo]
  | cons b rest ih =>
      intro seen
      by_cases h : seen.contains b = true
      · simp only [dedupFirstGo, h, if_true]
        exact ih seen
      · have hb : seen.contains b = false := by simpa using h
        simp only [dedupFirstGo, h, if_false, hb]
        refine ⟨List.nodup_cons.mpr ⟨fun hmem => ?_, (ih (b :: seen)).1⟩, ?_⟩
        · have := (ih (b :: seen)).2 b hmem
          simp [List.contains_cons] at this
        · intro x hx
          rcases List.mem_cons.mp hx with rfl | hx'
          · exact hb
          · have := (ih (b :: seen)).2 x hx'
            simp only [List.contains_cons, Bool.or_eq_false_iff] at this
            exact this.2

/-- De-duplication output is a sublist of its input, so listing order is
preserved. -/
theorem dedupFirstGo_sublist (l : List String) :
    ∀ seen : List String, (dedupFirstGo seen l).Sublist l := by
  induction l with
  | nil => intro seen; simp [dedupFirstGo]
  | cons b rest ih =>
      intro seen
      by_cases h : seen.contains b = true
      · simp only [dedupFirstGo, h, if_true]
        exact (ih seen).trans (List.sublist_cons_self b rest)
      · simp only [dedupFirstGo, h, if_false]
        exact List.Sublist.cons₂ b (ih (b :: seen))

/-- The relay loop forwards a block of fragments and continues on the rest
of the stream. -/
theorem relayModelStream_fragments_append (pre : List String) (rest : List StreamStep) :
    relayModelStream (pre.map StreamStep.fragment ++ rest) =
      (pre ++ (relayModelStream rest).1, (relayModelStream rest).2) := by
  induction pre with
  | nil => simp
  | cons s pre ih => simp [relayModelStream, ih]

/-! ## Claim theorems -/

/-- C1: for every pair of staged and unstaged diff outputs, `getGitChanges`
returns (not errors) the combination of the section bundle, whose sections
appear in the fixed order STAGED then UNSTAGED (the label sequence is a
sublist of the two-label order, the staged section first and the unstaged
section last when present), every included section has a non-empty trimmed
body, and both diffs empty after trimming give the empty bundle and the
empty combined text rather than an error. -/
theorem c1_workingChanges_bundle (run : String → Except ProcFailure String)
    (stagedDiff unstagedDiff : String)
    (hs : run "git diff --cached" = .ok stagedDiff)
    (hu : run "git diff" = .ok unstagedDiff) :
    getGitChanges run = .ok (combineDiffs stagedDiff unstagedDiff) ∧
    (∀ sec ∈ gitChangesBundle stagedDiff unstagedDiff, jsTrim sec.body ≠ "") ∧
    ((gitChangesBundle stagedDiff unstagedDiff).map DiffSection.label).Sublist
      ["STAGED CHANGES", "UNSTAGED CHANGES"] ∧
    (jsTrim stagedDiff ≠ "" →
      (gitChangesBundle stagedDiff unstagedDiff).head? =
        some ⟨"STAGED CHANGES", stagedDiff⟩) ∧
    (jsTrim unstagedDiff ≠ "" →
      (gitChangesBundle stagedDiff unstagedDiff).getLast? =
        some ⟨"UNSTAGED CHANGES", unstagedDiff⟩) ∧
    (jsTrim stagedDiff = "" → jsTrim unstagedDiff = "" →
      gitChangesBundle stagedDiff unstagedDiff = [] ∧ getGitChanges run = .ok "") := by
  refine ⟨by simp [getGitChanges, hs, hu], ?_, ?_, ?_, ?_, ?_⟩ <;>
    by_cases h1 : jsTrim stagedDiff = "" <;>
    by_cases h2 : jsTrim unstagedDiff = "" <;>
    simp [gitChangesBundle, getGitChanges, combineDiffs, hs, hu, h1, h2]

/-- C1 witness: a run with one staged diff and an unstaged diff that trims
to empty yields exactly the staged section and no unstaged one. -/
theorem c1_workingChanges_bundle_witness :
    getGitChanges
        (fun cmd => if cmd = "git diff --cached" then .ok "diff --git a\n" else .ok "  \n") =
      .ok (combineDiffs "diff --git a\n" "  \n") ∧
    (∀ sec ∈ gitChangesBundle "diff --git a\n" "  \n", jsTrim sec.body ≠ "") ∧
    (gitChangesBundle "diff --git a\n" "  \n").head? =
      some ⟨"STAGED CHANGES", "diff --git a\n"⟩ := by
  have h := c1_workingChanges_bundle
    (fun cmd => if cmd = "git diff --cached" then .ok "diff --git a\n" else .ok "  \n")
    "diff --git a\n" "  \n" rfl rfl
  exact ⟨h.1, h.2.1, h.2.2.2.1 (by decide)⟩

/-- C2: `resolveBranch` returns the name itself when direct verification
succeeds; when it fails and the name does not start with `origin/`, a
successful retry with the prefix returns the remote-qualified reference;
when the retry also fails, or the name already starts with `origin/`, it
fails with the branch-not-found error naming that branch. -/
theorem c2_resolveBranch_fallback (verify : String → Bool) (branch : String) :
    (verify branch = true → resolveBranch verify branch = .ok branch) ∧
    (verify branch = false → strStartsWith branch "origin/" = false →
      verify ("origin/" ++ branch) = true →
      resolveBranch verify branch = .ok ("origin/" ++ branch)) ∧
    (verify branch = false → strStartsWith branch "origin/" = false →
      verify ("origin/" ++ branch) = false →
      resolveBranch verify branch =
        .error (.simpleError ("Branch '" ++ branch ++ "' not found"))) ∧
    (verify branch = false → strStartsWith branch "origin/" = true →
      resolveBranch verify branch =
        .error (.simpleError ("Branch '" ++ branch ++ "' not found"))) := by
  refine ⟨fun h1 => ?_, fun h1 h2 h3 => ?_, fun h1 h2 h3 => ?_, fun h1 h2 => ?_⟩
  · simp [resolveBranch, h1]
  · simp [resolveBranch, h1, h2, h3]
  · simp [resolveBranch, h1, h2, h3]
  · simp [resolveBranch, h1, h2]

/-- Sample verification environment: `main` exists locally, `feature/x`
exists only as the remote-tracking `origin/feature/x`. -/
def sampleVerify : String → Bool :=
  fun r => r == "main" || r == "origin/feature/x"

/-- C2 witness: under `sampleVerify`, a local branch resolves to itself, a
remote-only branch resolves to its `origin/`-qualified form, and missing
branches (with or without the prefix) fail with the naming error. -/
theorem c2_resolveBranch_fallback_witness :
    resolveBranch sampleVerify "main" = .ok "main" ∧
    resolveBranch sampleVerify "feature/x" = .ok ("origin/" ++ "feature/x") ∧
    resolveBranch sampleVerify "ghost" =
      .error (.simpleError ("Branch '" ++ "ghost" ++ "' not found")) ∧
    resolveBranch sampleVerify "origin/gone" =
      .error (.simpleError ("Branch '" ++ "origin/gone" ++ "' not found")) :=
  ⟨(c2_resolveBranch_fallback sampleVerify "main").1 (by decide),
   (c2_resolveBranch_fallback sampleVerify "feature/x").2.1 (by decide) (by decide) (by decide),
   (c2_resolveBranch_fallback sampleVerify "ghost").2.2.1 (by decide) (by decide) (by decide),
   (c2_resolveBranch_fallback sampleVerify "origin/gone").2.2.2 (by decide) (by decide)⟩

/-- C3: when both branch names resolve, `getBranchDiff` issues exactly one
three-dot diff invocation `git diff <resolvedBase>...<resolvedTarget>`
(with the remote-qualified reference whenever resolution used the
`origin/` fallback, since the resolved names are used verbatim) and
returns the raw output of that invocation, which the spec's data model
views as the single section labeled BRANCH DIFF. -/
theorem c3_branchDiff_single_threedot (env : GitEnv)
    (targetBranch baseBranch resolvedTarget resolvedBase stdout : String)
    (ht : resolveBranch env.verify targetBranch = .ok resolvedTarget)
    (hb : resolveBranch env.verify baseBranch = .ok resolvedBase)
    (hd : env.diff3 resolvedBase resolvedTarget = .ok stdout) :
    getBranchDiffT env targetBranch baseBranch =
      (["git diff " ++ resolvedBase ++ "..." ++ resolvedTarget], .ok stdout) ∧
    (getBranchDiff env targetBranch baseBranch).map specBranchDiffBundle =
      .ok [⟨"BRANCH DIFF", stdout⟩] := by
  refine ⟨?_, ?_⟩ <;>
    simp [getBranchDiffT, getBranchDiff, ht, hb, hd, specBranchDiffBundle, Except.map]

/-- Sample git environment realizing the spec's fallback scenario: `main`
is local, `feature/x` exists only as `origin/feature/x`, and the three-dot
diff of that resolved pair succeeds with a fixed output. -/
def sampleBranchEnv : GitEnv where
  verify := sampleVerify
  diff3 := fun rb rt =>
    if rb == "main" && rt == "origin/feature/x" then .ok "diff --git x\n"
    else .error ⟨some 1, "unexpected"⟩

/-- C3 witness: reviewing `feature/x` against `main` when `feature/x`
exists only remotely issues exactly the invocation
`git diff main...origin/feature/x` and returns its raw output. -/
theorem c3_branchDiff_single_threedot_witness :
    getBranchDiffT sampleBranchEnv "feature/x" "main" =
      (["git diff " ++ "main" ++ "..." ++ "origin/feature/x"], .ok "diff --git x\n") :=
  (c3_branchDiff_single_threedot sampleBranchEnv "feature/x" "main"
    "origin/feature/x" "main" "diff --git x\n" rfl rfl rfl).1

/-- Git environment in which every reference verifies but the three-dot
diff itself fails, as with unrelated histories (git exits 128 with a
no-merge-base message). -/
def compareFailEnv : GitEnv where
  verify := fun _ => true
  diff3 := fun _ _ => .error ⟨some 128, "fatal: feature main: no merge base"⟩

/-- C5 counterexample: for a resolved pair whose diff invocation fails,
`getBranchDiff` propagates the raw process failure (the rejected exec
promise is an `Error` instance, which the catch clause rethrows unchanged),
and does not produce the classified compare error. -/
theorem c5_counterexample_raw_propagation :
    resolveBranch compareFailEnv.verify "feature" = .ok "feature" ∧
    resolveBranch compareFailEnv.verify "main" = .ok "main" ∧
    getBranchDiff compareFailEnv "feature" "main" =
      .error (.procError ⟨some 128, "fatal: feature main: no merge base"⟩) ∧
    JsError.procError ⟨some 128, "fatal: feature main: no merge base"⟩ ≠
      .simpleError "Unable to compare branches 'feature' and 'main'" :=
  ⟨rfl, rfl, rfl, by decide⟩

/-- C5 amended: when both branches resolve and the diff invocation fails,
`getBranchDiff` rethrows the raw process error unchanged; the compare-error
message would be produced only for a thrown value that is not an `Error`
instance, which never arises. -/
theorem c5_amended_raw_process_error (env : GitEnv)
    (targetBranch baseBranch resolvedTarget resolvedBase : String) (f : ProcFailure)
    (ht : resolveBranch env.verify targetBranch = .ok resolvedTarget)
    (hb : resolveBranch env.verify baseBranch = .ok resolvedBase)
    (hd : env.diff3 resolvedBase resolvedTarget = .error f) :
    getBranchDiff env targetBranch baseBranch = .error (.procError f) := by
  simp [getBranchDiff, getBranchDiffT, ht, hb, hd]

/-- C5 amended witness: the concrete failing comparison propagates the raw
exit-128 process error. -/
theorem c5_amended_raw_process_error_witness :
    getBranchDiff compareFailEnv "feature" "main" =
      .error (.procError ⟨some 128, "fatal: feature main: no merge base"⟩) :=
  c5_amended_raw_process_error compareFailEnv "feature" "main" "feature" "main"
    ⟨some 128, "fatal: feature main: no merge base"⟩ rfl rfl rfl

/-- Follows the spec's words (§4.3): strip the remote-alias prefix from
remote entries only — an entry is rewritten exactly when it starts with
`origin/`. Kept for comparison with the source's `replace('origin/', '')`,
which removes the first occurrence of the substring anywhere. -/
def specStripRemoteAlias (b : String) : String :=
  if strStartsWith b "origin/" then String.mk (b.data.drop 7) else b

/-- Follows the spec's words: the branch-listing pipeline with prefix-only
stripping in place of the source's first-substring-occurrence replacement. -/
def specListBranches (stdout : String) : List String :=
  dedupFirst (((((jsSplitLines stdout).map jsTrim).filter
      (fun b => b.length > 0)).filter
      (fun b => !strStartsWith b "origin/HEAD")).map specStripRemoteAlias)

/-- C4 counterexample: on the listing output `feature/origin/x` — a legal
branch name that does not start with `origin/` — `getBranches` removes the
inner `origin/` substring and returns `feature/x`, while prefix-only
stripping as claimed would leave the name unchanged. -/
theorem c4_counterexample_substring_strip :
    getBranches "feature/origin/x" = ["feature/x"] ∧
    specListBranches "feature/origin/x" = ["feature/origin/x"] ∧
    getBranches "feature/origin/x" ≠ specListBranches "feature/origin/x" :=
  ⟨by decide, by decide, by decide⟩

/-- C4 amended: `getBranches` returns the processed entries in listing
order without duplicates (first occurrences kept): entries that trim to
empty are removed, entries starting with `origin/HEAD` are excluded, and
each returned name is the corresponding trimmed entry with the FIRST
occurrence of the substring `origin/` removed (not only a leading one); in
particular a listing with both `feature-x` and `origin/feature-x` yields
`feature-x` exactly once. -/
theorem c4_amended_listing (stdout : String) :
    (getBranches stdout).Nodup ∧
    (getBranches stdout).Sublist (branchLines stdout) ∧
    (∀ b ∈ getBranches stdout, ∃ line ∈ jsSplitLines stdout,
        (jsTrim line).length > 0 ∧ strStartsWith (jsTrim line) "origin/HEAD" = false ∧
        b = replaceFirstStr "origin/" "" (jsTrim line)) ∧
    getBranches "feature-x\norigin/feature-x" = ["feature-x"] := by
  refine ⟨(dedupFirstGo_nodup_unseen (branchLines stdout) []).1,
          dedupFirstGo_sublist (branchLines stdout) [], ?_, by decide⟩
  intro b hb
  have hmem : b ∈ branchLines stdout :=
    (dedupFirstGo_sublist (branchLines stdout) []).mem hb
  simp only [branchLines, List.mem_map, List.mem_filter, Bool.not_eq_true',
    decide_eq_true_eq] at hmem
  obtain ⟨t, ⟨⟨⟨line, hline, rfl⟩, hlen⟩, hhead⟩, rfl⟩ := hmem
  exact ⟨line, hline, hlen, hhead, rfl⟩

/-- C4 amended witness: the listing `main` and `origin/dev` has no
duplicate output, and the returned name `dev` arises from the line
`origin/dev` with its `origin/` occurrence removed. -/
theorem c4_amended_listing_witness :
    (getBranches "main\norigin/dev").Nodup ∧
    ∃ line ∈ jsSplitLines "main\norigin/dev", (jsTrim line).length > 0 ∧
      strStartsWith (jsTrim line) "origin/HEAD" = false ∧
      "dev" = replaceFirstStr "origin/" "" (jsTrim line) := by
  have h := c4_amended_listing "main\norigin/dev"
  exact ⟨h.1, h.2.2.1 "dev" (by decide)⟩

/-- Captured output one character larger than the 1 MiB runtime default
ceiling, used to separate the call sites that pass the 10 MiB option from
those that pass none. -/
def bigOut : String := String.mk (List.replicate 1048577 'a')

/-- Character count of `bigOut`. -/
theorem bigOut_length : bigOut.length = 1048577 := by
  have h : bigOut.length = (List.replicate 1048577 'a').length := rfl
  rw [h, List.length_replicate]

/-- C6 counterexample: the branch-listing invocation passes no `maxBuffer`
option, so its effective ceiling is the 1 MiB runtime default rather than
the claimed 10 MiB; an output just above 1 MiB fails there with the
output-too-large error while the branch-diff invocation captures it
whole. -/
theorem c6_counterexample_branchList_ceiling :
    maxBufferOf CallSite.branchList = none ∧
    effectiveCeiling CallSite.branchList ≠ 1024 * 1024 * 10 ∧
    runnerCaptures CallSite.branchList bigOut =
      .error (.simpleError "stdout maxBuffer length exceeded") ∧
    runnerCaptures CallSite.branchDiff bigOut = .ok bigOut := by
  refine ⟨rfl, by decide, ?_, ?_⟩ <;>
    simp [runnerCaptures, effectiveCeiling, maxBufferOf, bigOut_length]

/-- C6 amended: only the three diff invocations (staged, unstaged, branch
diff) pass the 10 MiB `maxBuffer` ceiling; the branch-listing and
reference-verification invocations pass none and get the 1 MiB runtime
default; at every call site an output exceeding the effective ceiling
fails with the output-too-large error and one within it is captured
whole. -/
theorem c6_amended_ceilings (c : CallSite) (out : String) :
    (effectiveCeiling CallSite.stagedDiff = 1024 * 1024 * 10 ∧
     effectiveCeiling CallSite.unstagedDiff = 1024 * 1024 * 10 ∧
     effectiveCeiling CallSite.branchDiff = 1024 * 1024 * 10 ∧
     effectiveCeiling CallSite.branchList = 1024 * 1024 ∧
     effectiveCeiling CallSite.verifyRef = 1024 * 1024) ∧
    (out.length > effectiveCeiling c →
      runnerCaptures c out = .error (.simpleError "stdout maxBuffer length exceeded")) ∧
    (out.length ≤ effectiveCeiling c → runnerCaptures c out = .ok out) := by
  refine ⟨⟨rfl, rfl, rfl, rfl, rfl⟩, fun h => ?_, fun h => ?_⟩ <;>
    simp [runnerCaptures, h]

/-- C6 amended witness: the over-1-MiB output exceeds the branch-listing
ceiling and fails there. -/
theorem c6_amended_ceilings_witness :
    runnerCaptures CallSite.branchList bigOut =
      .error (.simpleError "stdout maxBuffer length exceeded") :=
  (c6_amended_ceilings CallSite.branchList bigOut).2.1
    (by rw [bigOut_length]; decide)

/-- C7: in `getGitChanges` — the caller that recognizes the exit-128
convention — a failure of either diff invocation whose `code` property is
128 is re-classified as the not-a-repository error instead of the raw
process error. -/
theorem c7_exit128_notARepository (run : String → Except ProcFailure String)
    (f : ProcFailure) (h128 : f.code = some 128) :
    (run "git diff --cached" = .error f →
      getGitChanges run = .error (.simpleError "Not a git repository")) ∧
    (∀ stagedDiff, run "git diff --cached" = .ok stagedDiff →
      run "git diff" = .error f →
      getGitChanges run = .error (.simpleError "Not a git repository")) := by
  constructor
  · intro h
    simp [getGitChanges, h, classifyGitChangesFailure, JsError.isCode128, h128]
  · intro stagedDiff hs hu
    simp [getGitChanges, hs, hu, classifyGitChangesFailure, JsError.isCode128, h128]

/-- Run environment outside a repository: every git invocation exits 128. -/
def notARepoRun : String → Except ProcFailure String :=
  fun _ => .error ⟨some 128, "fatal: not a git repository (or any of the parent directories): .git"⟩

/-- C7 witness: outside a repository, `getGitChanges` fails with the
classified not-a-repository error. -/
theorem c7_exit128_notARepository_witness :
    getGitChanges notARepoRun = .error (.simpleError "Not a git repository") :=
  (c7_exit128_notARepository notARepoRun
    ⟨some 128, "fatal: not a git repository (or any of the parent directories): .git"⟩
    rfl).1 rfl

/-- C8: when the model stream raises a `vscode.LanguageModelError` after
some fragments, the relay has forwarded exactly those fragments, stops,
and reports the classified model error with the service's message, code
and cause; when it raises any other value, the relay propagates that value
unchanged. -/
theorem c8_modelError_classified (pre : List String) (m c : String)
    (cause : Option String) (e : JsError)
    (he : e.isLanguageModelError = false) :
    relayModelStream
        (pre.map StreamStep.fragment ++ [.failure (.languageModelError m c cause)]) =
      (pre, .modelErrorReported m c cause) ∧
    relayModelStream (pre.map StreamStep.fragment ++ [.failure e]) =
      (pre, .propagated e) := by
  constructor
  · rw [relayModelStream_fragments_append]
    simp [relayModelStream]
  · rw [relayModelStream_fragments_append]
    cases e <;> simp_all [relayModelStream, JsError.isLanguageModelError]

/-- C8 witness: after two forwarded fragments, a quota error from the
service is reported as the classified model error, while a plain error is
propagated unchanged. -/
theorem c8_modelError_classified_witness :
    relayModelStream
        [.fragment "Summ", .fragment "ary",
         .failure (.languageModelError "quota exceeded" "quota-exceeded" (some "429"))] =
      (["Summ", "ary"], .modelErrorReported "quota exceeded" "quota-exceeded" (some "429")) ∧
    relayModelStream
        [.fragment "Summ", .fragment "ary", .failure (.simpleError "socket hang up")] =
      (["Summ", "ary"], .propagated (.simpleError "socket hang up")) :=
  c8_modelError_classified ["Summ", "ary"] "quota exceeded" "quota-exceeded"
    (some "429") (.simpleError "socket hang up") (by decide)

/-- C9: when cancellation is signaled after the caller has received the
first `k` fragments, the relay has delivered exactly those `k` fragments
in the model's emission order, forwards nothing further, retracts nothing
already emitted, and finishes without raising an error. -/
theorem c9_cancellation_delivers_taken (fragments : List String) (k : Nat) :
    relayModelStream (cancelledStream fragments k) =
      (fragments.take k, .completed) := by
  have h : ∀ l : List String,
      relayModelStream (l.map StreamStep.fragment) = (l, .completed) := by
    intro l
    have := relayModelStream_fragments_append l []
    simpa [relayModelStream] using this
  simpa [cancelledStream] using h (fragments.take k)

/-- C10: a `/reviewBranch` prompt with exactly one whitespace-separated
token takes that token as the target and defaults the base to `main` when
the listing contains it, else to `master` when it contains that, else (or
when the listing itself failed) shows the usage hint without any diff or
model request; with two or more tokens the first two are used and the rest
are ignored. -/
theorem c10_reviewBranch_arguments (prompt t : String)
    (branchListing : Except JsError (List String)) :
    (∀ branches : List String, jsSplitWs (jsTrim prompt) = [t] → t ≠ "" →
      branchListing = .ok branches →
      parseBranchArgs prompt branchListing =
        (if branches.contains "main" then .proceed t "main"
         else if branches.contains "master" then .proceed t "master"
         else .usage)) ∧
    (∀ e : JsError, jsSplitWs (jsTrim prompt) = [t] → branchListing = .error e →
      parseBranchArgs prompt branchListing = .usage) ∧
    (∀ (b : String) (rest : List String),
      jsSplitWs (jsTrim prompt) = t :: b :: rest → t ≠ "" → b ≠ "" →
      parseBranchArgs prompt branchListing = .proceed t b) := by
  refine ⟨fun branches hsplit ht hok => ?_, fun e hsplit herr => ?_,
    fun b rest hsplit ht hb => ?_⟩
  · subst hok
    by_cases hmain : branches.contains "main" = true <;>
      by_cases hmaster : branches.contains "master" = true <;>
      simp [parseBranchArgs, hsplit, ht, hmain, hmaster]
  · subst herr
    simp [parseBranchArgs, hsplit]
  · simp [parseBranchArgs, hsplit, ht, hb]

/-- C10 witness: the single-token prompt `feature-x` with a listing that
contains `main` proceeds against base `main`; the three-token prompt
`a b c` uses `a` and `b` and ignores `c`. -/
theorem c10_reviewBranch_arguments_witness :
    parseBranchArgs " feature-x " (.ok ["dev", "main"]) =
      (if (["dev", "main"] : List String).contains "main" then .proceed "feature-x" "main"
       else if (["dev", "main"] : List String).contains "master" then
         .proceed "feature-x" "master"
       else .usage) ∧
    parseBranchArgs "a b c" (.ok ["dev", "main"]) = .proceed "a" "b" :=
  ⟨(c10_reviewBranch_arguments " feature-x " "feature-x" (.ok ["dev", "main"])).1
      ["dev", "main"] (by decide) (by decide) rfl,
   (c10_reviewBranch_arguments "a b c" "a" (.ok ["dev", "main"])).2.2
      "b" ["c"] (by decide) (by decide) (by decide)⟩
